import Mathlib

/-!
Shallow embedding of the fraud-detection ingestion pipeline
(repository `shreyanshnanavati/fraud-detection`).

The embedding follows the batching version of
`src/ingestion/ingestion.service.ts` (the version that uses
`ErrorLoggingService`, `IngestionConfigService`, `processBatchWithRetry`
and `bulkCreate`), together with `src/users/users.service.ts`
(validation, trust scoring, `create`, `bulkCreate`) and
`src/ingestion/error-logging.service.ts` (the asynchronous error queue).

JavaScript values that may be `undefined` are modelled as `Option String`
(`none` = `undefined`); JavaScript truthiness of a string is
"non-empty"; `RegExp.test` coerces `undefined` to the string
`"undefined"`.  Floating-point scores are modelled over `ℚ` (all the
constants involved are exact decimals).  The asynchronous store is
modelled by an oracle `Store : Nat → Bool` telling whether the n-th
bulk-write attempt of the run succeeds.
-/

namespace FraudDetection

/-! ## Data model -/

/-- `CreateUserDto` as assembled by the row mapper inside
`processCsvStream`: each field read off a CSV record may be absent
(JavaScript `undefined`), modelled as `none`. -/
structure CreateUserDto where
  fullName : Option String
  email : Option String
  phone : Option String
  sourceFile : String
deriving Repr, DecidableEq

/-- A persisted `User` row (the fields that the claims are about). -/
structure User where
  fullName : Option String
  email : Option String
  phone : Option String
  sourceFile : String
  trustScore : ℚ
deriving Repr, DecidableEq

/-! ## JavaScript value helpers -/

/-- JavaScript string coercion as performed by `RegExp.test`:
`undefined` becomes the string `"undefined"`. -/
def jsString : Option String → String
  | none => "undefined"
  | some s => s

/-- JavaScript truthiness of a (possibly `undefined`) string:
`undefined` and `""` are falsy, every other string is truthy. -/
def truthy : Option String → Bool
  | none => false
  | some s => decide (s ≠ "")

/-- JavaScript `a || b` on (possibly `undefined`) strings: yields `a`
when `a` is truthy and `b` otherwise. -/
def jsOr (a b : Option String) : Option String :=
  if truthy a then a else b

/-! ## Validators (`users.service.ts`, `isValidEmail` / `isValidPhone`)

The email regex is `^[a-zA-Z0-9._%+-]+@[a-zA-Z0-9.-]+\.[a-zA-Z]{2,}$`
and the phone regex is `^\+?[1-9]\d{1,14}$`.  Both are anchored, so a
string matches iff it decomposes as the pattern describes; the
decompositions are enumerated explicitly to keep the matcher
executable. -/

/-- Character class `[a-zA-Z0-9._%+-]` (the local part of the email). -/
def isLocalChar (c : Char) : Bool :=
  c.isAlpha || c.isDigit || c = '.' || c = '_' || c = '%' || c = '+' || c = '-'

/-- Character class `[a-zA-Z0-9.-]` (the domain body of the email). -/
def isDomainChar (c : Char) : Bool :=
  c.isAlpha || c.isDigit || c = '.' || c = '-'

/-- All decompositions `cs = pre ++ suf` of a character list. -/
def splits : List Char → List (List Char × List Char)
  | [] => [([], [])]
  | c :: cs => ([], c :: cs) :: (splits cs).map (fun p => (c :: p.1, p.2))

/-- Matcher for the anchored tail `[a-zA-Z0-9.-]+\.[a-zA-Z]{2,}$` of the
email regex. -/
def domainMatch (cs : List Char) : Bool :=
  (splits cs).any fun p =>
    match p.2 with
    | '.' :: tld =>
        !p.1.isEmpty && p.1.all isDomainChar &&
          decide (2 ≤ tld.length) && tld.all Char.isAlpha
    | _ => false

/-- Matcher for the full anchored email regex
`^[a-zA-Z0-9._%+-]+@[a-zA-Z0-9.-]+\.[a-zA-Z]{2,}$`. -/
def emailMatch (cs : List Char) : Bool :=
  (splits cs).any fun p =>
    match p.2 with
    | '@' :: rest => !p.1.isEmpty && p.1.all isLocalChar && domainMatch rest
    | _ => false

/-- `isValidEmail` of `users.service.ts`. -/
def isValidEmail (s : String) : Bool := emailMatch s.data

/-- Matcher for `[1-9]\d{1,14}$`: a first digit `1`-`9` followed by one
to fourteen further digits. -/
def phoneBody : List Char → Bool
  | [] => false
  | c :: rest =>
      (c.isDigit && c ≠ '0') && decide (1 ≤ rest.length) &&
        decide (rest.length ≤ 14) && rest.all Char.isDigit

/-- Matcher for the full anchored phone regex `^\+?[1-9]\d{1,14}$`; the
optional leading `+` must be consumed when present since `[1-9]` cannot
match it. -/
def phoneMatch : List Char → Bool
  | '+' :: rest => phoneBody rest
  | cs => phoneBody cs

/-- `isValidPhone` of `users.service.ts`. -/
def isValidPhone (s : String) : Bool := phoneMatch s.data

/-- `this.isValidEmail(user.email)` where `user.email` may be
`undefined`: `RegExp.test` coerces `undefined` to `"undefined"`. -/
def isValidEmailJS (v : Option String) : Bool := isValidEmail (jsString v)

/-- `this.isValidPhone(user.phone)` where `user.phone` may be
`undefined`. -/
def isValidPhoneJS (v : Option String) : Bool := isValidPhone (jsString v)

/-- JavaScript `String.prototype.trim`: strip leading and trailing
whitespace (defined structurally over the character list so that it is
executable by the kernel). -/
def jsTrim (s : String) : String :=
  String.mk
    (((s.data.dropWhile Char.isWhitespace).reverse.dropWhile
        Char.isWhitespace).reverse)

/-- The full-name check `!user.fullName || user.fullName.trim().length < 2`
shared verbatim by `validateUserData` and `calculateTrustScore`. -/
def nameInvalid (user : CreateUserDto) : Bool :=
  !truthy user.fullName || decide ((jsTrim (jsString user.fullName)).length < 2)

/-! ## `users.service.ts`: validation, trust scoring, create, bulkCreate -/

/-- `validateUserData` of `users.service.ts`: throws a
`BadRequestException` for a missing/invalid email, then phone, then
full name; returns normally otherwise. -/
def validateUserData (user : CreateUserDto) : Except String Unit :=
  if !truthy user.email || !isValidEmailJS user.email then
    Except.error "Invalid email format"
  else if !truthy user.phone || !isValidPhoneJS user.phone then
    Except.error "Invalid phone number format"
  else if nameInvalid user then
    Except.error "Full name is required and must be at least 2 characters"
  else Except.ok ()

/-- The `deductions` list built by `calculateTrustScore`: `0.3` for an
invalid email, `0.3` for an invalid phone, `0.2` for an invalid/short
full name. -/
def deductionsOf (user : CreateUserDto) : List ℚ :=
  (if !isValidEmailJS user.email then [(0.3 : ℚ)] else []) ++
    (if !isValidPhoneJS user.phone then [(0.3 : ℚ)] else []) ++
      (if nameInvalid user then [(0.2 : ℚ)] else [])

/-- JavaScript `Math.min` on two numbers (spelled out as a conditional
so that it is executable by the kernel). -/
def mathMin (a b : ℚ) : ℚ := if a ≤ b then a else b

/-- JavaScript `Math.max` on two numbers. -/
def mathMax (a b : ℚ) : ℚ := if a ≤ b then b else a

/-- `calculateTrustScore` of `users.service.ts`: start from `1.0`,
subtract the sum of the deductions, clamp with
`Math.max(0, Math.min(1, score))`. -/
def calculateTrustScore (user : CreateUserDto) : ℚ :=
  mathMax 0 (mathMin 1 (1 - (deductionsOf user).foldl (· + ·) 0))

/-- `create` of `users.service.ts` (the single-row path): validate,
compute the trust score, persist.  A thrown `BadRequestException` is the
`Except.error` case. -/
def create (dto : CreateUserDto) : Except String User :=
  match validateUserData dto with
  | Except.error e => Except.error e
  | Except.ok _ =>
      Except.ok
        { fullName := dto.fullName, email := dto.email, phone := dto.phone,
          sourceFile := dto.sourceFile, trustScore := calculateTrustScore dto }

/-- The user record written for one DTO by `bulkCreate`: the trust score
is hard-coded to `0` (`trustScore: 0, // Default trust score for new
users`) and no validation is performed. -/
def mkBulkUser (dto : CreateUserDto) : User :=
  { fullName := dto.fullName, email := dto.email, phone := dto.phone,
    sourceFile := dto.sourceFile, trustScore := 0 }

/-- `bulkCreate` of `users.service.ts`: one `prisma.user.create` per DTO
inside a transaction, each with `trustScore: 0`; DB-level failure of the
transaction is modelled separately by the store oracle of the
pipeline. -/
def bulkCreate (users : List CreateUserDto) : List User :=
  users.map mkBulkUser

/-! ## Row mapper (`processCsvStream`, construction of `userDto`)

A decoded CSV record is a finite map from keys to cell strings: header
names in header mode, stringified column indices (`csv-parser` with
`headers: false`) in positional mode.  A key absent from the record
reads as JavaScript `undefined`, i.e. `none`. -/

/-- A raw CSV record: association list from column key to cell value. -/
def RawRecord := List (String × String)
deriving DecidableEq, Repr

/-- JavaScript property access `data[key]`: the first binding of the key
if present, `undefined` (`none`) otherwise. -/
def getField (data : RawRecord) (key : String) : Option String :=
  (List.find? (fun p => p.1 == key) data).map Prod.snd

/-- An explicit column mapping (`mapping : Record<string, number>`),
giving the column index of each field. -/
structure Mapping where
  fullName : Nat
  email : Nat
  phone : Nat
deriving Repr, DecidableEq

/-- The row mapper inside the `data` handler of `processCsvStream`:
positional reads when a mapping is supplied, otherwise header reads with
the two accepted spellings combined by JavaScript `||`; `sourceFile`
comes from the call context. -/
def mapRow (mapping : Option Mapping) (filename : String) (data : RawRecord) :
    CreateUserDto :=
  match mapping with
  | some m =>
      { fullName := getField data (toString m.fullName)
        email := getField data (toString m.email)
        phone := getField data (toString m.phone)
        sourceFile := filename }
  | none =>
      { fullName := jsOr (getField data "Name") (getField data "fullName")
        email := jsOr (getField data "Email") (getField data "email")
        phone := jsOr (getField data "Phone") (getField data "phone")
        sourceFile := filename }

/-! ## Ingestion configuration and store oracle -/

/-- `IngestionConfigService`: `batchSize`, `maxRetries`, `retryDelay`
(defaults 1000, 3, 1000). -/
structure IngestionConfig where
  batchSize : Nat
  maxRetries : Nat
  retryDelay : Nat
deriving Repr, DecidableEq

/-- The default configuration values. -/
def defaultConfig : IngestionConfig :=
  { batchSize := 1000, maxRetries := 3, retryDelay := 1000 }

/-- Store oracle: whether the n-th `bulkCreate` attempt of the run
(counted across the whole run) succeeds or throws. -/
def Store := Nat → Bool

/-! ## `processBatchWithRetry` -/

/-- Outcome of one `processBatchWithRetry` call: whether it returned
normally (`ok = true`) or threw after exhausting retries, how many
`bulkCreate` attempts it made, and the sleeps it performed (each entry
is one `setTimeout` duration). -/
structure RetryResult where
  ok : Bool
  attemptsMade : Nat
  sleeps : List Nat
deriving Repr, DecidableEq

/-- The `while (retries < maxRetries)` loop of `processBatchWithRetry`,
by remaining allowed attempts `k`; `a` is the global attempt counter
fed to the store oracle.  With `k = 0` the guard fails immediately: the
function returns normally with no attempt made.  On a failed attempt,
if it was the last allowed one the error is rethrown, otherwise the
loop sleeps `retryDelay` and retries. -/
def retryLoop (store : Store) (retryDelay : Nat) : Nat → Nat → RetryResult
  | 0, _ => { ok := true, attemptsMade := 0, sleeps := [] }
  | k + 1, a =>
      if store a then { ok := true, attemptsMade := 1, sleeps := [] }
      else if k = 0 then { ok := false, attemptsMade := 1, sleeps := [] }
      else
        let r := retryLoop store retryDelay k (a + 1)
        { ok := r.ok, attemptsMade := r.attemptsMade + 1,
          sleeps := retryDelay :: r.sleeps }

/-- `processBatchWithRetry` of `ingestion.service.ts`, run against the
store oracle starting at global attempt counter `a`. -/
def processBatchWithRetry (cfg : IngestionConfig) (store : Store) (a : Nat) :
    RetryResult :=
  retryLoop store cfg.retryDelay cfg.maxRetries a

/-! ## The per-row handler and the stream driver -/

/-- `IngestionError` as pushed by the catch block of the `data` handler
(`validationErrors` is omitted: `extractValidationErrors` returns `[]`
for store errors, and wall-clock timestamps are not modelled). -/
structure IngestionError where
  rowNumber : Nat
  rawData : RawRecord
  errorMessage : String
deriving Repr, DecidableEq

/-- The error message recorded when a batch write throws after its
retries are exhausted. -/
def batchFailMsg : String := "batch write failed"

/-- Mutable state of one `processCsvStream` invocation, plus
instrumentation (`calls`: the argument of every `bulkCreate` attempt in
order; `sleeps`: every retry sleep). -/
structure PipeState where
  rowNumber : Nat
  totalSuccess : Nat
  currentBatch : List CreateUserDto
  errors : List IngestionError
  attempts : Nat
  calls : List (List CreateUserDto)
  sleeps : List Nat
deriving Repr, DecidableEq

/-- The state at the start of `processCsvStream`. -/
def initState : PipeState :=
  { rowNumber := 0, totalSuccess := 0, currentBatch := [], errors := [],
    attempts := 0, calls := [], sleeps := [] }

/-- The `data` handler of `processCsvStream` for one decoded record:
increment `rowNumber`, map the record to a DTO, push it onto
`currentBatch`; when the batch has reached `batchSize`, run
`processBatchWithRetry` — on normal return add the batch length to
`totalSuccess` and clear the batch, on a throw push a single
`IngestionError` for the current row (the batch is not cleared). -/
def handleRow (cfg : IngestionConfig) (store : Store) (mapping : Option Mapping)
    (filename : String) (st : PipeState) (data : RawRecord) : PipeState :=
  let rn := st.rowNumber + 1
  let userDto := mapRow mapping filename data
  let batch := st.currentBatch ++ [userDto]
  if cfg.batchSize ≤ batch.length then
    let r := processBatchWithRetry cfg store st.attempts
    let st' : PipeState :=
      { st with rowNumber := rn, currentBatch := batch,
                attempts := st.attempts + r.attemptsMade,
                calls := st.calls ++ List.replicate r.attemptsMade batch,
                sleeps := st.sleeps ++ r.sleeps }
    if r.ok then
      { st' with totalSuccess := st'.totalSuccess + batch.length,
                 currentBatch := [] }
    else
      { st' with errors := st'.errors ++
          [{ rowNumber := rn, rawData := data, errorMessage := batchFailMsg }] }
  else
    { st with rowNumber := rn, currentBatch := batch }

/-- `IngestionResult.summary` of `ingestion-result.interface.ts`
(the `processedAt` wall-clock field is not modelled). -/
structure IngestionSummary where
  totalRows : Nat
  successfulRows : Nat
  failedRows : Nat
  filename : String
deriving Repr, DecidableEq

/-- `IngestionResult` (its `success` array is always `[]` in the
batching version and is omitted). -/
structure IngestionResult where
  errors : List IngestionError
  summary : IngestionSummary
deriving Repr, DecidableEq

/-- The summary built by the `end` handler from the final state. -/
def mkSummary (st : PipeState) (filename : String) : IngestionSummary :=
  { totalRows := st.rowNumber, successfulRows := st.totalSuccess,
    failedRows := st.errors.length, filename := filename }

/-- The `end` handler of `processCsvStream`: flush a non-empty remainder
batch, then resolve the summary.  The final flush is not wrapped in a
try/catch: if it throws, the promise is neither resolved nor rejected
and no result is ever produced, modelled as `none`. -/
def finishStream (cfg : IngestionConfig) (store : Store) (filename : String)
    (st : PipeState) : Option (IngestionResult × PipeState) :=
  if st.currentBatch.isEmpty then
    some ({ errors := st.errors, summary := mkSummary st filename }, st)
  else
    let r := processBatchWithRetry cfg store st.attempts
    let st' : PipeState :=
      { st with attempts := st.attempts + r.attemptsMade,
                calls := st.calls ++ List.replicate r.attemptsMade st.currentBatch,
                sleeps := st.sleeps ++ r.sleeps }
    if r.ok then
      let st'' : PipeState :=
        { st' with totalSuccess := st'.totalSuccess + st.currentBatch.length }
      some ({ errors := st''.errors, summary := mkSummary st'' filename }, st'')
    else none

/-- `processCsvStream` of `ingestion.service.ts` on a fully decoded
stream: run the `data` handler over every record in decode order, then
the `end` handler.  (Per the spec's §5/§9 correctness note, record
handling is modelled synchronously with decode advancement.) -/
def processCsvStream (cfg : IngestionConfig) (store : Store)
    (mapping : Option Mapping) (filename : String) (rows : List RawRecord) :
    Option (IngestionResult × PipeState) :=
  finishStream cfg store filename
    (rows.foldl (handleRow cfg store mapping filename) initState)

/-! ## `processStream`: processed-file registry around the decoder -/

/-- The zero-row summary returned when the filename is already
registered. -/
def zeroResult (filename : String) : IngestionResult :=
  { errors := [],
    summary := { totalRows := 0, successfulRows := 0, failedRows := 0,
                 filename := filename } }

/-- `processStream` of `ingestion.service.ts` (batching version): check
the processed-file registry before decoding; on a hit, return the
zero-row summary without reading the stream; otherwise run the decoder
and register the filename exactly when `summary.successfulRows > 0`.
The registry is the list of registered filenames. -/
def processStream (cfg : IngestionConfig) (store : Store)
    (registry : List String) (filename : String) (mapping : Option Mapping)
    (rows : List RawRecord) : Option (IngestionResult × List String) :=
  if registry.contains filename then
    some (zeroResult filename, registry)
  else
    match processCsvStream cfg store mapping filename rows with
    | none => none
    | some (res, _st) =>
        if 0 < res.summary.successfulRows then
          some (res, registry ++ [filename])
        else some (res, registry)

/-! ## `error-logging.service.ts`: the asynchronous error queue

`logError` pushes onto `errorQueue` and returns; `processQueue` is
called once from the constructor and re-schedules itself (via
`setImmediate`) only from its own `finally` block.  The service is
modelled as a transition system: `scheduled` counts the pending
`processQueue` invocations, a `drain` event runs one of them (if any),
and a `log` event is one `logError` call.  One `processQueue`
invocation is modelled atomically: it shifts one item, writes it, and
re-arms itself when the queue is still non-empty. -/

/-- State of the `ErrorLoggingService`: the in-memory queue, the
`isProcessingQueue` flag, the number of scheduled `processQueue`
invocations, and the durably written log entries in write order. -/
structure ELState where
  errorQueue : List (String × IngestionError)
  isProcessingQueue : Bool
  scheduled : Nat
  written : List (String × IngestionError)
deriving Repr, DecidableEq

/-- One invocation of `processQueue`: return immediately when already
processing or the queue is empty; otherwise shift one item, write it,
reset the flag, and schedule another invocation iff items remain. -/
def processQueueRun (st : ELState) : ELState :=
  if st.isProcessingQueue || st.errorQueue.isEmpty then st
  else
    match st.errorQueue with
    | [] => st
    | item :: rest =>
        { errorQueue := rest, isProcessingQueue := false,
          scheduled := if rest.isEmpty then st.scheduled else st.scheduled + 1,
          written := st.written ++ [item] }

/-- The service state right after the constructor: the constructor's
`processQueue()` call runs against an empty queue and returns without
scheduling anything. -/
def constructService : ELState :=
  processQueueRun
    { errorQueue := [], isProcessingQueue := false, scheduled := 0,
      written := [] }

/-- External events of the error-logging service: a `logError` call
(which only pushes onto the queue) or the event loop running one
scheduled `processQueue` invocation, if any is scheduled. -/
inductive ELEvent where
  | log (filename : String) (e : IngestionError)
  | drain
deriving Repr, DecidableEq

/-- One event step of the error-logging service. -/
def elStep (st : ELState) : ELEvent → ELState
  | ELEvent.log f e => { st with errorQueue := st.errorQueue ++ [(f, e)] }
  | ELEvent.drain =>
      if st.scheduled = 0 then st
      else processQueueRun { st with scheduled := st.scheduled - 1 }

/-- Run a sequence of events. -/
def elRun (st : ELState) (evs : List ELEvent) : ELState :=
  evs.foldl elStep st

/-- The errors enqueued by a sequence of events, in order. -/
def loggedErrors (evs : List ELEvent) : List (String × IngestionError) :=
  evs.filterMap fun ev =>
    match ev with
    | ELEvent.log f e => some (f, e)
    | ELEvent.drain => none

/-! ## Concrete inputs used by witnesses and counterexamples -/

/-- A well-formed CSV record (header mode). -/
def rowA : RawRecord := [("Email", "a@b.co"), ("Phone", "+12345"), ("Name", "Jo")]

/-- A record failing all three required-field checks. -/
def rowBad : RawRecord :=
  [("Email", "not-an-email"), ("Phone", "abc"), ("Name", "A")]

/-- A record with no `Name`/`fullName` column at all. -/
def rowNoName : RawRecord := [("Email", "a@b.co"), ("Phone", "+12345")]

/-- The DTO the row mapper produces from `rowBad`. -/
def dtoBad : CreateUserDto := mapRow none "bad.csv" rowBad

/-- A DTO passing all three required-field checks. -/
def dtoGood : CreateUserDto :=
  { fullName := some "Jo", email := some "a@b.co", phone := some "+12345",
    sourceFile := "w9.csv" }

/-- A store oracle that accepts every bulk write. -/
def storeT : Store := fun _ => true

/-- A store oracle that rejects every bulk write. -/
def storeF : Store := fun _ => false

/-- A store oracle that rejects the first three bulk-write attempts and
accepts every later one. -/
def store3 : Store := fun a => decide (3 ≤ a)

/-! ## Helper lemmas about the clamp -/

/-- `mathMin` is the lattice `min` of `ℚ`. -/
theorem mathMin_eq (a b : ℚ) : mathMin a b = min a b := by
  rw [mathMin, min_def]

/-- `mathMax` is the lattice `max` of `ℚ`. -/
theorem mathMax_eq (a b : ℚ) : mathMax a b = max a b := by
  rw [mathMax, max_def]

/-! ## Helper lemmas about `processBatchWithRetry` -/

/-- The retry loop makes at most `k` attempts, every sleep has the fixed
duration `d`, and a throw happens only after exactly `k` failed
attempts. -/
theorem retryLoop_spec (store : Store) (d : Nat) :
    ∀ k a, (retryLoop store d k a).attemptsMade ≤ k ∧
      (∀ x ∈ (retryLoop store d k a).sleeps, x = d) ∧
      ((retryLoop store d k a).ok = false → (retryLoop store d k a).attemptsMade = k) := by
  intro k
  induction k with
  | zero => intro a; simp [retryLoop]
  | succ n ih =>
    intro a
    by_cases hs : store a = true
    · simp [retryLoop, hs]
    · by_cases hn : n = 0
      · simp [retryLoop, hs, hn]
      · have h := ih (a + 1)
        simp only [retryLoop, hs, if_neg hn, Bool.false_eq_true, if_false]
        refine ⟨by omega, ?_, ?_⟩
        · intro x hx
          rcases List.mem_cons.mp hx with h1 | h2
          · exact h1
          · exact h.2.1 x h2
        · intro hok
          have := h.2.2 hok
          omega

/-- With a store that accepts every write, `processBatchWithRetry`
returns normally after `min maxRetries 1` attempts and no sleep. -/
theorem retry_allOk (cfg : IngestionConfig) (store : Store) (a : Nat)
    (hstore : ∀ x, store x = true) :
    processBatchWithRetry cfg store a =
      { ok := true, attemptsMade := min cfg.maxRetries 1, sleeps := [] } := by
  unfold processBatchWithRetry
  cases h : cfg.maxRetries with
  | zero => simp [retryLoop]
  | succ n => simp [retryLoop, hstore a, Nat.succ_min_succ]

/-- With `maxRetries = 0` the `while` guard fails immediately:
`processBatchWithRetry` returns normally with no attempt and no sleep,
whatever the store does. -/
theorem retry_mr0 (cfg : IngestionConfig) (store : Store) (a : Nat)
    (hmr : cfg.maxRetries = 0) :
    processBatchWithRetry cfg store a =
      { ok := true, attemptsMade := 0, sleeps := [] } := by
  unfold processBatchWithRetry
  rw [hmr]
  rfl

/-! ## Helper lemmas characterizing one `data` event -/

/-- A row that fills the batch, with the flush returning normally. -/
theorem handleRow_ok (cfg : IngestionConfig) (store : Store)
    (mapping : Option Mapping) (filename : String) (st : PipeState)
    (data : RawRecord)
    (hb : cfg.batchSize ≤ st.currentBatch.length + 1)
    (hok : (processBatchWithRetry cfg store st.attempts).ok = true) :
    handleRow cfg store mapping filename st data =
      { rowNumber := st.rowNumber + 1,
        totalSuccess := st.totalSuccess + (st.currentBatch.length + 1),
        currentBatch := [],
        errors := st.errors,
        attempts := st.attempts + (processBatchWithRetry cfg store st.attempts).attemptsMade,
        calls := st.calls ++
          List.replicate (processBatchWithRetry cfg store st.attempts).attemptsMade
            (st.currentBatch ++ [mapRow mapping filename data]),
        sleeps := st.sleeps ++ (processBatchWithRetry cfg store st.attempts).sleeps } := by
  simp [handleRow, hb, hok]

/-- A row that fills the batch, with the flush throwing: one error is
recorded and the batch is retained. -/
theorem handleRow_fail (cfg : IngestionConfig) (store : Store)
    (mapping : Option Mapping) (filename : String) (st : PipeState)
    (data : RawRecord)
    (hb : cfg.batchSize ≤ st.currentBatch.length + 1)
    (hok : (processBatchWithRetry cfg store st.attempts).ok = false) :
    handleRow cfg store mapping filename st data =
      { rowNumber := st.rowNumber + 1,
        totalSuccess := st.totalSuccess,
        currentBatch := st.currentBatch ++ [mapRow mapping filename data],
        errors := st.errors ++
          [{ rowNumber := st.rowNumber + 1, rawData := data,
             errorMessage := batchFailMsg }],
        attempts := st.attempts + (processBatchWithRetry cfg store st.attempts).attemptsMade,
        calls := st.calls ++
          List.replicate (processBatchWithRetry cfg store st.attempts).attemptsMade
            (st.currentBatch ++ [mapRow mapping filename data]),
        sleeps := st.sleeps ++ (processBatchWithRetry cfg store st.attempts).sleeps } := by
  simp [handleRow, hb, hok]

/-- A row that does not fill the batch: it is only buffered. -/
theorem handleRow_small (cfg : IngestionConfig) (store : Store)
    (mapping : Option Mapping) (filename : String) (st : PipeState)
    (data : RawRecord)
    (hb : st.currentBatch.length + 1 < cfg.batchSize) :
    handleRow cfg store mapping filename st data =
      { st with rowNumber := st.rowNumber + 1,
                currentBatch := st.currentBatch ++ [mapRow mapping filename data] } := by
  have : ¬ cfg.batchSize ≤ st.currentBatch.length + 1 := by omega
  simp [handleRow, this]

/-! ## Run invariants of the `data`-event fold -/

/-- When every flush returns normally, the fold over the rows records no
error, counts one row per record, and every row is either in
`totalSuccess` or still buffered. -/
theorem foldl_allOk (cfg : IngestionConfig) (store : Store)
    (mapping : Option Mapping) (filename : String)
    (hflush : ∀ a, (processBatchWithRetry cfg store a).ok = true) :
    ∀ (rows : List RawRecord) (st : PipeState),
      (List.foldl (handleRow cfg store mapping filename) st rows).errors = st.errors ∧
      (List.foldl (handleRow cfg store mapping filename) st rows).rowNumber
        = st.rowNumber + rows.length ∧
      (List.foldl (handleRow cfg store mapping filename) st rows).totalSuccess
          + (List.foldl (handleRow cfg store mapping filename) st rows).currentBatch.length
        = st.totalSuccess + st.currentBatch.length + rows.length := by
  intro rows
  induction rows with
  | nil => intro st; simp
  | cons r rest ih =>
    intro st
    rw [List.foldl_cons]
    by_cases hfull : cfg.batchSize ≤ st.currentBatch.length + 1
    · rw [handleRow_ok cfg store mapping filename st r hfull (hflush st.attempts)]
      obtain ⟨h1, h2, h3⟩ := ih _
      refine ⟨by simpa using h1, ?_, ?_⟩
      · simp only at h2
        simp [h2]
        omega
      · simp only at h3
        simp at h3 ⊢
        omega
    · rw [handleRow_small cfg store mapping filename st r (by omega)]
      obtain ⟨h1, h2, h3⟩ := ih _
      refine ⟨by simpa using h1, ?_, ?_⟩
      · simp only at h2
        simp [h2]
        omega
      · simp only at h3
        simp at h3 ⊢
        omega

/-- When `maxRetries = 0`, no flush ever calls the store: the call log,
the sleeps and the attempt counter never change. -/
theorem foldl_mr0 (cfg : IngestionConfig) (store : Store)
    (mapping : Option Mapping) (filename : String)
    (hmr : cfg.maxRetries = 0) :
    ∀ (rows : List RawRecord) (st : PipeState),
      (List.foldl (handleRow cfg store mapping filename) st rows).calls = st.calls ∧
      (List.foldl (handleRow cfg store mapping filename) st rows).sleeps = st.sleeps := by
  intro rows
  induction rows with
  | nil => intro st; simp
  | cons r rest ih =>
    intro st
    rw [List.foldl_cons]
    by_cases hfull : cfg.batchSize ≤ st.currentBatch.length + 1
    · rw [handleRow_ok cfg store mapping filename st r hfull
        (by rw [retry_mr0 cfg store st.attempts hmr])]
      rw [retry_mr0 cfg store st.attempts hmr]
      simp only [List.replicate_zero, List.append_nil]
      exact ih _
    · rw [handleRow_small cfg store mapping filename st r (by omega)]
      exact ih _

/-- With an always-accepting store, a positive batch size and at least
one allowed attempt, the buffer length follows the row count modulo the
batch size and the call log consists of exactly the full batches, one
call each. -/
theorem foldl_calls (cfg : IngestionConfig) (store : Store)
    (mapping : Option Mapping) (filename : String)
    (hstore : ∀ x, store x = true) (hbpos : 0 < cfg.batchSize)
    (hmr : 1 ≤ cfg.maxRetries) :
    ∀ (rows : List RawRecord) (st : PipeState),
      st.currentBatch.length < cfg.batchSize →
      (List.foldl (handleRow cfg store mapping filename) st rows).currentBatch.length
        = (st.currentBatch.length + rows.length) % cfg.batchSize ∧
      (List.foldl (handleRow cfg store mapping filename) st rows).calls.map List.length
        = st.calls.map List.length ++
            List.replicate ((st.currentBatch.length + rows.length) / cfg.batchSize)
              cfg.batchSize := by
  intro rows
  induction rows with
  | nil =>
    intro st hlt
    simp [Nat.mod_eq_of_lt hlt, Nat.div_eq_of_lt hlt]
  | cons r rest ih =>
    intro st hlt
    rw [List.foldl_cons]
    by_cases hfull : cfg.batchSize ≤ st.currentBatch.length + 1
    · have hbe : st.currentBatch.length + 1 = cfg.batchSize := by omega
      have hok := retry_allOk cfg store st.attempts hstore
      have hmin : min cfg.maxRetries 1 = 1 := by omega
      rw [handleRow_ok cfg store mapping filename st r hfull (by rw [hok])]
      rw [hok]
      obtain ⟨h1, h2⟩ := ih
        { rowNumber := st.rowNumber + 1,
          totalSuccess := st.totalSuccess + (st.currentBatch.length + 1),
          currentBatch := [],
          errors := st.errors,
          attempts := st.attempts + min cfg.maxRetries 1,
          calls := st.calls ++
            List.replicate (min cfg.maxRetries 1)
              (st.currentBatch ++ [mapRow mapping filename r]),
          sleeps := st.sleeps ++ [] }
        (by simpa using hbpos)
      have he : st.currentBatch.length + (rest.length + 1)
          = rest.length + cfg.batchSize := by omega
      constructor
      · rw [h1]
        simp only [List.length_nil, Nat.zero_add, List.length_cons]
        rw [he, Nat.add_mod_right]
      · rw [h2, hmin]
        simp only [List.replicate_one, List.map_append, List.map_cons, List.map_nil,
          Nat.zero_add, List.length_append, List.length_cons, List.length_nil,
          List.length_cons]
        have hd : (st.currentBatch.length + (rest.length + 1)) / cfg.batchSize
            = rest.length / cfg.batchSize + 1 := by
          rw [he, Nat.add_div_right _ hbpos]
        rw [hd, List.replicate_succ, List.append_assoc, List.singleton_append, hbe]
    · rw [handleRow_small cfg store mapping filename st r (by omega)]
      obtain ⟨h1, h2⟩ := ih
        { st with rowNumber := st.rowNumber + 1,
                  currentBatch := st.currentBatch ++ [mapRow mapping filename r] }
        (by simpa using hfull)
      simp only [List.length_append, List.length_cons, List.length_nil] at h1 h2
      have he : st.currentBatch.length + 1 + rest.length
          = st.currentBatch.length + (rest.length + 1) := by omega
      rw [he] at h1 h2
      constructor
      · rw [h1]
        simp
      · rw [h2]
        simp

/-! ## Helper lemmas about the error-logging service -/

/-- From any state with no scheduled `processQueue` invocation, no event
sequence ever runs the worker: `logError` events pile up in the queue
and nothing else changes. -/
theorem elRun_unscheduled (evs : List ELEvent) :
    ∀ st : ELState, st.scheduled = 0 →
      elRun st evs = { st with errorQueue := st.errorQueue ++ loggedErrors evs } := by
  induction evs with
  | nil => intro st h; simp [elRun, loggedErrors]
  | cons ev rest ih =>
    intro st h
    cases ev with
    | log f e =>
      have h2 := ih { st with errorQueue := st.errorQueue ++ [(f, e)] } h
      simp only [elRun, List.foldl_cons, elStep] at h2 ⊢
      rw [h2]
      simp [loggedErrors, List.filterMap_cons, List.append_assoc]
    | drain =>
      have h2 := ih st h
      simp only [elRun, List.foldl_cons, elStep, h, if_pos] at h2 ⊢
      rw [h2]
      simp [loggedErrors, List.filterMap_cons]

/-! ## Claim theorems -/

/-- C1 (code bug): a row failing the hard validation checks (here:
invalid email, invalid phone, too-short name) is NOT rejected by the
batching pipeline: it raises no `IngestionError`, is handed to the batch
buffer, is passed to the bulk-write collaborator, and is counted as
successful — even though `validateUserData` rejects exactly this row.
The batching `processCsvStream` never invokes the validator. -/
theorem C1_invalid_row_persisted_by_batch_path :
    validateUserData dtoBad = Except.error "Invalid email format" ∧
    (processCsvStream defaultConfig storeT none "bad.csv" [rowBad]).map
        (fun p => (p.1.summary, p.1.errors, p.2.calls)) =
      some ({ totalRows := 1, successfulRows := 1, failedRows := 0,
              filename := "bad.csv" }, [], [[dtoBad]]) := by
  exact ⟨by rfl, by decide⟩

/-- C2 (counterexample): with `batchSize = 2`, `maxRetries = 3` and a
store that rejects the first three attempts and accepts the fourth, two
rows yield a summary with `totalRows = 2`, `successfulRows = 2`,
`failedRows = 1`, and `2 ≠ 2 + 1`. -/
theorem C2_summary_invariant_counterexample :
    (processCsvStream { batchSize := 2, maxRetries := 3, retryDelay := 9 }
        store3 none "c2.csv" [rowA, rowA]).map (fun p => p.1.summary) =
      some { totalRows := 2, successfulRows := 2, failedRows := 1,
             filename := "c2.csv" } ∧
    ¬ ((2 : Nat) = 2 + 1) := by
  exact ⟨by decide, by decide⟩

/-- C3 (counterexample): a batch of 2 rows whose flush fails on all
`maxRetries = 3` attempts produces exactly one `IngestionError`, so
`failedRows = 1`, not 2; the failed batch is silently retained, retried
by the end-of-stream flush (the fourth logged call), and its rows end up
counted as successful. -/
theorem C3_retry_counterexample :
    (processCsvStream { batchSize := 2, maxRetries := 3, retryDelay := 11 }
        store3 none "c3.csv" [rowA, rowA]).map
        (fun p => (p.1.summary, p.2.calls.map List.length)) =
      some ({ totalRows := 2, successfulRows := 2, failedRows := 1,
              filename := "c3.csv" }, [2, 2, 2, 2]) ∧
    ¬ ((1 : Nat) = 2) := by
  exact ⟨by decide, by decide⟩

/-- C8 (counterexample): a record with no `Name`/`fullName` column maps
to `fullName = none` (JavaScript `undefined`), not to the empty
string. -/
theorem C8_missing_field_counterexample :
    (mapRow none "c8.csv" rowNoName).fullName = none ∧
    ¬ ((mapRow none "c8.csv" rowNoName).fullName = some "") := by
  exact ⟨by decide, by decide⟩

/-- C6 (code bug): after construction the error-logging service has no
scheduled `processQueue` invocation, and `logError` never schedules one;
hence under every event sequence nothing is ever durably written and
every enqueued error stays in the queue forever — the worker is never
re-armed once idle. -/
theorem C6_error_queue_never_drained (evs : List ELEvent) :
    (elRun constructService evs).written = [] ∧
    (elRun constructService evs).errorQueue = loggedErrors evs ∧
    (elRun constructService evs).scheduled = 0 := by
  have h := elRun_unscheduled evs constructService (by decide)
  rw [h]
  refine ⟨?_, ?_, ?_⟩ <;> simp [constructService, processQueueRun]

/-- C5: the trust score is exactly `1.0` minus `0.3` for an invalid
email, minus `0.3` for an invalid phone, minus `0.2` for a
missing/too-short full name, clamped to `[0, 1]`; in particular it
always lies between `0` and `1`. -/
theorem C5_trust_score_formula (u : CreateUserDto) :
    calculateTrustScore u =
      max 0 (min 1 ((1 : ℚ)
        - (if isValidEmailJS u.email = false then (0.3 : ℚ) else 0)
        - (if isValidPhoneJS u.phone = false then (0.3 : ℚ) else 0)
        - (if nameInvalid u = true then (0.2 : ℚ) else 0))) ∧
    0 ≤ calculateTrustScore u ∧ calculateTrustScore u ≤ 1 := by
  have hcalc : calculateTrustScore u
      = max 0 (min 1 (1 - (deductionsOf u).foldl (· + ·) 0)) := by
    unfold calculateTrustScore
    rw [mathMax_eq, mathMin_eq]
  refine ⟨?_, ?_, ?_⟩
  · rw [hcalc]
    unfold deductionsOf
    cases he : isValidEmailJS u.email <;> cases hp : isValidPhoneJS u.phone <;>
      cases hn : nameInvalid u <;> simp <;> norm_num
  · rw [hcalc]
    exact le_max_left 0 _
  · rw [hcalc]
    exact max_le (by norm_num) (min_le_left 1 _)

/-- A value accepted by the email regex is in particular a truthy
(non-empty, defined) string. -/
theorem truthy_of_validEmail (v : Option String)
    (h : isValidEmailJS v = true) : truthy v = true := by
  cases v with
  | none => exact absurd h (by decide)
  | some s =>
    by_cases hs : s = ""
    · subst hs; exact absurd h (by decide)
    · simp [truthy, hs]

/-- A value accepted by the phone regex is in particular a truthy
(non-empty, defined) string. -/
theorem truthy_of_validPhone (v : Option String)
    (h : isValidPhoneJS v = true) : truthy v = true := by
  cases v with
  | none => exact absurd h (by decide)
  | some s =>
    by_cases hs : s = ""
    · subst hs; exact absurd h (by decide)
    · simp [truthy, hs]

/-- `validateUserData` returns normally exactly when all three
required-field predicates hold. -/
theorem validate_ok_iff (u : CreateUserDto) :
    validateUserData u = Except.ok () ↔
      (isValidEmailJS u.email = true ∧ isValidPhoneJS u.phone = true ∧
        nameInvalid u = false) := by
  unfold validateUserData
  constructor
  · intro h
    split_ifs at h with h1 h2 h3
    simp only [Bool.or_eq_true, Bool.not_eq_true', not_or,
      Bool.not_eq_false] at h1 h2
    exact ⟨h1.2, h2.2, by simpa using h3⟩
  · rintro ⟨he, hp, hn⟩
    have te := truthy_of_validEmail u.email he
    have tp := truthy_of_validPhone u.phone hp
    simp [he, hp, hn, te, tp]

/-- The trust score is exactly `1` iff no deduction applies. -/
theorem score_one_iff (u : CreateUserDto) :
    calculateTrustScore u = 1 ↔
      (isValidEmailJS u.email = true ∧ isValidPhoneJS u.phone = true ∧
        nameInvalid u = false) := by
  unfold calculateTrustScore deductionsOf
  cases he : isValidEmailJS u.email <;> cases hp : isValidPhoneJS u.phone <;>
    cases hn : nameInvalid u <;> simp [mathMax, mathMin] <;> norm_num

/-- C9: every user persisted through the single-row `create` path has
trust score exactly `1` (validation rejects precisely the inputs that
would incur a deduction), while every user persisted through
`bulkCreate` has trust score exactly `0`. -/
theorem C9_trust_score_paths :
    (∀ dto u, create dto = Except.ok u → u.trustScore = 1) ∧
    (∀ dtos u, u ∈ bulkCreate dtos → u.trustScore = 0) ∧
    (∀ dto, validateUserData dto = Except.ok () ↔
        calculateTrustScore dto = 1) := by
  have hiff : ∀ dto : CreateUserDto,
      validateUserData dto = Except.ok () ↔ calculateTrustScore dto = 1 :=
    fun dto => (validate_ok_iff dto).trans (score_one_iff dto).symm
  refine ⟨?_, ?_, hiff⟩
  · intro dto u h
    unfold create at h
    cases hv : validateUserData dto with
    | error e => rw [hv] at h; cases h
    | ok x =>
      rw [hv] at h
      injection h with h'
      have hx : x = () := rfl
      have hok : validateUserData dto = Except.ok () := by rw [hv, hx]
      rw [← h']
      exact (hiff dto).mp hok
  · intro dtos u h
    obtain ⟨d, _, rfl⟩ := List.mem_map.mp h
    rfl

/-- C2 (amended): the summary invariant
`totalRows = successfulRows + failedRows` holds for every summary
produced by a run in which the store accepts every bulk write (no batch
flush ever exhausts its retries). -/
theorem C2_summary_invariant_amended (cfg : IngestionConfig) (store : Store)
    (mapping : Option Mapping) (filename : String) (rows : List RawRecord)
    (res : IngestionResult) (st : PipeState)
    (hstore : ∀ a, store a = true)
    (hrun : processCsvStream cfg store mapping filename rows = some (res, st)) :
    res.summary.totalRows = res.summary.successfulRows + res.summary.failedRows := by
  have hflush : ∀ a, (processBatchWithRetry cfg store a).ok = true := fun a => by
    rw [retry_allOk cfg store a hstore]
  obtain ⟨he, hr, hs⟩ := foldl_allOk cfg store mapping filename hflush rows initState
  unfold processCsvStream at hrun
  generalize hgen :
    List.foldl (handleRow cfg store mapping filename) initState rows = stf
    at hrun he hr hs
  simp only [initState, List.length_nil, Nat.zero_add, Nat.add_zero] at he hr hs
  unfold finishStream at hrun
  by_cases hempty : stf.currentBatch.isEmpty
  · rw [if_pos hempty] at hrun
    simp only [Option.some.injEq, Prod.mk.injEq] at hrun
    obtain ⟨hres, -⟩ := hrun
    have hcb : stf.currentBatch.length = 0 := by
      cases hc : stf.currentBatch with
      | nil => rfl
      | cons a l => rw [hc] at hempty; cases hempty
    rw [← hres]
    simp only [mkSummary, he, List.length_nil]
    omega
  · rw [if_neg hempty] at hrun
    simp only [retry_allOk cfg store stf.attempts hstore, if_true,
      Option.some.injEq, Prod.mk.injEq] at hrun
    obtain ⟨hres, -⟩ := hrun
    rw [← hres]
    simp only [mkSummary, he, List.length_nil]
    omega

/-- C10: with `maxRetries = 0` the retry loop's guard fails immediately,
so `processBatchWithRetry` returns normally without a single bulk-write
attempt; every row is nevertheless counted in `successfulRows`, and the
run completes with an empty call log — rows are reported successful
without ever being persisted. -/
theorem C10_zero_retries_counts_without_persisting (cfg : IngestionConfig)
    (store : Store) (mapping : Option Mapping) (filename : String)
    (rows : List RawRecord) (res : IngestionResult) (st : PipeState)
    (hmr : cfg.maxRetries = 0)
    (hrun : processCsvStream cfg store mapping filename rows = some (res, st)) :
    (∀ a, processBatchWithRetry cfg store a
        = { ok := true, attemptsMade := 0, sleeps := [] }) ∧
    st.calls = [] ∧ res.errors = [] ∧
    res.summary.totalRows = rows.length ∧
    res.summary.successfulRows = rows.length ∧
    res.summary.failedRows = 0 := by
  have hretry : ∀ a, processBatchWithRetry cfg store a
      = { ok := true, attemptsMade := 0, sleeps := [] } :=
    fun a => retry_mr0 cfg store a hmr
  have hflush : ∀ a, (processBatchWithRetry cfg store a).ok = true := fun a => by
    rw [hretry a]
  obtain ⟨he, hr, hs⟩ := foldl_allOk cfg store mapping filename hflush rows initState
  obtain ⟨hcalls, -⟩ := foldl_mr0 cfg store mapping filename hmr rows initState
  unfold processCsvStream at hrun
  generalize hgen :
    List.foldl (handleRow cfg store mapping filename) initState rows = stf
    at hrun he hr hs hcalls
  simp only [initState, List.length_nil, Nat.zero_add, Nat.add_zero]
    at he hr hs hcalls
  unfold finishStream at hrun
  by_cases hempty : stf.currentBatch.isEmpty
  · rw [if_pos hempty] at hrun
    simp only [Option.some.injEq, Prod.mk.injEq] at hrun
    obtain ⟨hres, hstq⟩ := hrun
    subst hres
    subst hstq
    have hcb : stf.currentBatch.length = 0 := by
      cases hc : stf.currentBatch with
      | nil => rfl
      | cons a l => rw [hc] at hempty; cases hempty
    refine ⟨hretry, hcalls, he, ?_, ?_, ?_⟩ <;>
      simp only [mkSummary, he, List.length_nil] <;> omega
  · rw [if_neg hempty] at hrun
    simp only [hretry stf.attempts, List.replicate_zero, List.append_nil,
      if_true, Option.some.injEq, Prod.mk.injEq] at hrun
    obtain ⟨hres, hstq⟩ := hrun
    subst hres
    subst hstq
    refine ⟨hretry, hcalls, he, ?_, ?_, ?_⟩ <;>
      simp only [mkSummary, he, List.length_nil] <;> omega

/-- C7: with `batchSize = 1000` and a store accepting every write, any
1500 rows produce exactly two bulk-write calls — one of 1000 rows when
the buffer fills, one of 500 at end of stream — while any 1000 rows
produce exactly one call: the end-of-stream flush of an empty buffer
performs no call. -/
theorem C7_batch_flush_calls (store : Store) (mapping : Option Mapping)
    (filename : String) (rows1500 rows1000 : List RawRecord)
    (hstore : ∀ a, store a = true)
    (h1500 : rows1500.length = 1500) (h1000 : rows1000.length = 1000) :
    (processCsvStream defaultConfig store mapping filename rows1500).map
        (fun p => p.2.calls.map List.length) = some [1000, 500] ∧
    (processCsvStream defaultConfig store mapping filename rows1000).map
        (fun p => p.2.calls.map List.length) = some [1000] := by
  have hbpos : (0 : Nat) < defaultConfig.batchSize := by decide
  have hmr : 1 ≤ defaultConfig.maxRetries := by decide
  constructor
  · obtain ⟨hlen, hcalls⟩ := foldl_calls defaultConfig store mapping filename
      hstore hbpos hmr rows1500 initState (by decide)
    unfold processCsvStream
    generalize hgen :
      List.foldl (handleRow defaultConfig store mapping filename) initState
        rows1500 = stf at hlen hcalls
    simp only [initState, defaultConfig, h1500, List.length_nil, List.map_nil,
      List.nil_append, Nat.zero_add] at hlen hcalls
    norm_num at hlen hcalls
    have hnonempty : stf.currentBatch.isEmpty = false := by
      cases hc : stf.currentBatch with
      | nil => rw [hc] at hlen; cases hlen
      | cons a l => rfl
    unfold finishStream
    rw [hnonempty]
    simp only [Bool.false_eq_true, if_false,
      retry_allOk defaultConfig store stf.attempts hstore, if_true]
    have hm : defaultConfig.maxRetries ⊓ 1 = 1 := by decide
    simp [hm, hcalls, hlen]
  · obtain ⟨hlen, hcalls⟩ := foldl_calls defaultConfig store mapping filename
      hstore hbpos hmr rows1000 initState (by decide)
    unfold processCsvStream
    generalize hgen :
      List.foldl (handleRow defaultConfig store mapping filename) initState
        rows1000 = stf at hlen hcalls
    simp only [initState, defaultConfig, h1000, List.length_nil, List.map_nil,
      List.nil_append, Nat.zero_add] at hlen hcalls
    norm_num at hlen hcalls
    have hempty : stf.currentBatch.isEmpty = true := by
      cases hc : stf.currentBatch with
      | nil => rfl
      | cons a l => rw [hc] at hlen; cases hlen
    unfold finishStream
    rw [hempty]
    simp [hcalls]

/-- C4: the processed-file registry is consulted before any decoding
begins — an already-registered filename short-circuits to the zero-row
summary, untouched registry, and an output independent of the stream
contents — and after a fresh run the filename is registered exactly when
the run had at least one successful row. -/
theorem C4_registry_dedup (cfg : IngestionConfig) (store : Store)
    (registry : List String) (filename : String) (mapping : Option Mapping)
    (rows : List RawRecord) :
    (registry.contains filename = true →
        processStream cfg store registry filename mapping rows
          = some (zeroResult filename, registry)) ∧
    (registry.contains filename = false →
        ∀ res reg', processStream cfg store registry filename mapping rows
            = some (res, reg') →
          reg' = (if 0 < res.summary.successfulRows
                  then registry ++ [filename] else registry)) := by
  constructor
  · intro h
    unfold processStream
    rw [h]
    simp
  · intro h res reg' hrun
    unfold processStream at hrun
    rw [h] at hrun
    simp only [Bool.false_eq_true, if_false] at hrun
    cases hcs : processCsvStream cfg store mapping filename rows with
    | none => rw [hcs] at hrun; cases hrun
    | some p =>
      obtain ⟨pr, pst⟩ := p
      rw [hcs] at hrun
      by_cases hpos : 0 < pr.summary.successfulRows
      · simp only [hpos, if_true, Option.some.injEq, Prod.mk.injEq] at hrun
        obtain ⟨hres, hreg⟩ := hrun
        rw [← hres, ← hreg]
        simp [hpos]
      · simp only [hpos, if_false, Option.some.injEq, Prod.mk.injEq] at hrun
        obtain ⟨hres, hreg⟩ := hrun
        rw [← hres, ← hreg]
        simp [hpos]

/-- C3 (amended): the bulk writer makes at most `maxRetries` attempts
with the fixed `retryDelay` between attempts; if an attempt succeeds the
whole batch is counted toward `successfulRows`; if all `maxRetries`
attempts fail, exactly one `IngestionError` (for the current row) is
recorded — `failedRows` grows by one for the whole batch, the rows are
not individually surfaced — and the batch is silently retained in the
buffer. -/
theorem C3_retry_amended (cfg : IngestionConfig) (store : Store)
    (mapping : Option Mapping) (filename : String) (st : PipeState)
    (data : RawRecord)
    (hb : cfg.batchSize ≤ st.currentBatch.length + 1) :
    (processBatchWithRetry cfg store st.attempts).attemptsMade
        ≤ cfg.maxRetries ∧
    (∀ x ∈ (processBatchWithRetry cfg store st.attempts).sleeps,
        x = cfg.retryDelay) ∧
    ((processBatchWithRetry cfg store st.attempts).ok = true →
        (handleRow cfg store mapping filename st data).totalSuccess
            = st.totalSuccess + st.currentBatch.length + 1 ∧
        (handleRow cfg store mapping filename st data).errors = st.errors) ∧
    ((processBatchWithRetry cfg store st.attempts).ok = false →
        (processBatchWithRetry cfg store st.attempts).attemptsMade
            = cfg.maxRetries ∧
        (handleRow cfg store mapping filename st data).errors
            = st.errors ++ [{ rowNumber := st.rowNumber + 1, rawData := data,
                              errorMessage := batchFailMsg }] ∧
        (handleRow cfg store mapping filename st data).totalSuccess
            = st.totalSuccess ∧
        (handleRow cfg store mapping filename st data).currentBatch
            = st.currentBatch ++ [mapRow mapping filename data]) := by
  obtain ⟨ha, hsl, hfa⟩ :=
    retryLoop_spec store cfg.retryDelay cfg.maxRetries st.attempts
  refine ⟨ha, hsl, ?_, ?_⟩
  · intro hok
    rw [handleRow_ok cfg store mapping filename st data hb hok]
    constructor
    · show st.totalSuccess + (st.currentBatch.length + 1)
          = st.totalSuccess + st.currentBatch.length + 1
      omega
    · rfl
  · intro hfail
    rw [handleRow_fail cfg store mapping filename st data hb hfail]
    exact ⟨hfa hfail, rfl, rfl, rfl⟩

/-- C8 (amended): a field absent from the record — positionally or by
header name — is mapped to `none` (JavaScript `undefined`), not to the
empty string; the mapper is a total function and raises no error. -/
theorem C8_missing_field_amended (filename : String) (data : RawRecord)
    (m : Mapping) :
    (getField data "Name" = none → getField data "fullName" = none →
        (mapRow none filename data).fullName = none) ∧
    (getField data "Email" = none → getField data "email" = none →
        (mapRow none filename data).email = none) ∧
    (getField data "Phone" = none → getField data "phone" = none →
        (mapRow none filename data).phone = none) ∧
    (getField data (toString m.fullName) = none →
        (mapRow (some m) filename data).fullName = none) ∧
    (getField data (toString m.email) = none →
        (mapRow (some m) filename data).email = none) ∧
    (getField data (toString m.phone) = none →
        (mapRow (some m) filename data).phone = none) := by
  refine ⟨?_, ?_, ?_, ?_, ?_, ?_⟩
  · intro h1 h2; simp [mapRow, jsOr, h1, h2, truthy]
  · intro h1 h2; simp [mapRow, jsOr, h1, h2, truthy]
  · intro h1 h2; simp [mapRow, jsOr, h1, h2, truthy]
  · intro h1; simp [mapRow, h1]
  · intro h1; simp [mapRow, h1]
  · intro h1; simp [mapRow, h1]

/-! ## Witnesses: the hypotheses of the claim theorems are satisfiable -/

/-- Witness for C2 (amended) at a concrete run with an always-accepting
store. -/
theorem C2_summary_invariant_amended_witness :
    (∀ a, storeT a = true) ∧
    processCsvStream { batchSize := 2, maxRetries := 3, retryDelay := 5 }
        storeT none "w2.csv" [rowA] =
      some ({ errors := [],
              summary := { totalRows := 1, successfulRows := 1,
                           failedRows := 0, filename := "w2.csv" } },
            { rowNumber := 1, totalSuccess := 1,
              currentBatch := [mapRow none "w2.csv" rowA], errors := [],
              attempts := 1, calls := [[mapRow none "w2.csv" rowA]],
              sleeps := [] }) ∧
    ({ errors := [],
       summary := { totalRows := 1, successfulRows := 1, failedRows := 0,
                    filename := "w2.csv" } } : IngestionResult).summary.totalRows
      = ({ errors := [],
           summary := { totalRows := 1, successfulRows := 1, failedRows := 0,
                        filename := "w2.csv" } }
          : IngestionResult).summary.successfulRows
        + ({ errors := [],
             summary := { totalRows := 1, successfulRows := 1, failedRows := 0,
                          filename := "w2.csv" } }
            : IngestionResult).summary.failedRows := by
  refine ⟨fun a => rfl, by decide, ?_⟩
  exact C2_summary_invariant_amended
    { batchSize := 2, maxRetries := 3, retryDelay := 5 } storeT none "w2.csv"
    [rowA]
    { errors := [],
      summary := { totalRows := 1, successfulRows := 1, failedRows := 0,
                   filename := "w2.csv" } }
    { rowNumber := 1, totalSuccess := 1,
      currentBatch := [mapRow none "w2.csv" rowA], errors := [],
      attempts := 1, calls := [[mapRow none "w2.csv" rowA]], sleeps := [] }
    (fun a => rfl) (by decide)

/-- Witness for C3 (amended) at a concrete state whose next row fills
the batch, against an always-rejecting store. -/
theorem C3_retry_amended_witness :
    ({ batchSize := 1, maxRetries := 2, retryDelay := 9 }
        : IngestionConfig).batchSize ≤ initState.currentBatch.length + 1 ∧
    (processBatchWithRetry { batchSize := 1, maxRetries := 2, retryDelay := 9 }
        storeF initState.attempts).ok = false ∧
    (processBatchWithRetry { batchSize := 1, maxRetries := 2, retryDelay := 9 }
        storeF initState.attempts).attemptsMade
      ≤ ({ batchSize := 1, maxRetries := 2, retryDelay := 9 }
          : IngestionConfig).maxRetries ∧
    (handleRow { batchSize := 1, maxRetries := 2, retryDelay := 9 } storeF none
        "w3.csv" initState rowA).errors
      = initState.errors ++ [{ rowNumber := initState.rowNumber + 1,
                               rawData := rowA,
                               errorMessage := batchFailMsg }] := by
  have h := C3_retry_amended { batchSize := 1, maxRetries := 2, retryDelay := 9 }
    storeF none "w3.csv" initState rowA (by decide)
  exact ⟨by decide, by decide, h.1, (h.2.2.2 (by decide)).2.1⟩

/-- Witness for C4 at concrete registries: a hit short-circuits, a miss
followed by a one-success run registers the filename. -/
theorem C4_registry_dedup_witness :
    (["a.csv"].contains "a.csv" = true ∧
      processStream defaultConfig storeT ["a.csv"] "a.csv" none [rowA]
        = some (zeroResult "a.csv", ["a.csv"])) ∧
    (([] : List String).contains "a.csv" = false ∧
      (["a.csv"] : List String) =
        (if 0 < ({ errors := [],
                   summary := { totalRows := 1, successfulRows := 1,
                                failedRows := 0, filename := "a.csv" } }
                  : IngestionResult).summary.successfulRows
         then ([] : List String) ++ ["a.csv"] else ([] : List String))) := by
  refine ⟨⟨by decide, ?_⟩, ⟨by decide, ?_⟩⟩
  · exact (C4_registry_dedup defaultConfig storeT ["a.csv"] "a.csv" none
      [rowA]).1 (by decide)
  · exact (C4_registry_dedup defaultConfig storeT [] "a.csv" none [rowA]).2
      (by decide)
      { errors := [],
        summary := { totalRows := 1, successfulRows := 1, failedRows := 0,
                     filename := "a.csv" } }
      ["a.csv"] (by decide)

/-- Witness for C7 at concrete 1500-row and 1000-row streams. -/
theorem C7_batch_flush_calls_witness :
    (List.replicate 1500 rowA).length = 1500 ∧
    (List.replicate 1000 rowA).length = 1000 ∧
    (processCsvStream defaultConfig storeT none "w7.csv"
        (List.replicate 1500 rowA)).map (fun p => p.2.calls.map List.length)
      = some [1000, 500] ∧
    (processCsvStream defaultConfig storeT none "w7.csv"
        (List.replicate 1000 rowA)).map (fun p => p.2.calls.map List.length)
      = some [1000] := by
  have h := C7_batch_flush_calls storeT none "w7.csv"
    (List.replicate 1500 rowA) (List.replicate 1000 rowA) (fun a => rfl)
    (by rw [List.length_replicate]) (by rw [List.length_replicate])
  exact ⟨by rw [List.length_replicate], by rw [List.length_replicate], h.1, h.2⟩

/-- Witness for C8 (amended) at a record lacking the name column, in
header mode and in positional mode. -/
theorem C8_missing_field_amended_witness :
    getField rowNoName "Name" = none ∧
    getField rowNoName "fullName" = none ∧
    (mapRow none "w8.csv" rowNoName).fullName = none ∧
    getField rowNoName (toString
      ({ fullName := 5, email := 6, phone := 7 } : Mapping).fullName) = none ∧
    (mapRow (some { fullName := 5, email := 6, phone := 7 }) "w8.csv"
        rowNoName).fullName = none := by
  have h := C8_missing_field_amended "w8.csv" rowNoName
    { fullName := 5, email := 6, phone := 7 }
  exact ⟨by decide, by decide, h.1 (by decide) (by decide), by decide,
    h.2.2.2.1 (by decide)⟩

/-- Witness for C9 at a fully valid DTO (single-row path scores `1`) and
at the corresponding bulk-written record (scores `0`). -/
theorem C9_trust_score_paths_witness :
    create dtoGood = Except.ok { fullName := some "Jo",
                                 email := some "a@b.co",
                                 phone := some "+12345",
                                 sourceFile := "w9.csv", trustScore := 1 } ∧
    ({ fullName := some "Jo", email := some "a@b.co", phone := some "+12345",
       sourceFile := "w9.csv", trustScore := 1 } : User).trustScore = 1 ∧
    mkBulkUser dtoGood ∈ bulkCreate [dtoGood] ∧
    (mkBulkUser dtoGood).trustScore = 0 ∧
    validateUserData dtoGood = Except.ok () ∧
    calculateTrustScore dtoGood = 1 := by
  have hv : validateUserData dtoGood = Except.ok () := by rfl
  have hs : calculateTrustScore dtoGood = 1 :=
    (score_one_iff dtoGood).mpr ⟨by decide, by decide, by decide⟩
  have hc : create dtoGood = Except.ok { fullName := some "Jo",
                                         email := some "a@b.co",
                                         phone := some "+12345",
                                         sourceFile := "w9.csv",
                                         trustScore := 1 } := by
    unfold create
    rw [hv]
    simp only [hs]
    rfl
  have hm : mkBulkUser dtoGood ∈ bulkCreate [dtoGood] := by
    simp [bulkCreate]
  exact ⟨hc, C9_trust_score_paths.1 dtoGood _ hc, hm,
    C9_trust_score_paths.2.1 [dtoGood] _ hm, hv,
    (C9_trust_score_paths.2.2 dtoGood).mp hv⟩

/-- Witness for C10 at a concrete run with `maxRetries = 0` and a store
that would reject every write — no write is ever attempted. -/
theorem C10_zero_retries_counts_without_persisting_witness :
    ({ batchSize := 2, maxRetries := 0, retryDelay := 5 }
        : IngestionConfig).maxRetries = 0 ∧
    processCsvStream { batchSize := 2, maxRetries := 0, retryDelay := 5 }
        storeF none "w10.csv" [rowA, rowA, rowA] =
      some ({ errors := [],
              summary := { totalRows := 3, successfulRows := 3,
                           failedRows := 0, filename := "w10.csv" } },
            { rowNumber := 3, totalSuccess := 3,
              currentBatch := [mapRow none "w10.csv" rowA], errors := [],
              attempts := 0, calls := [], sleeps := [] }) ∧
    ({ rowNumber := 3, totalSuccess := 3,
       currentBatch := [mapRow none "w10.csv" rowA], errors := [],
       attempts := 0, calls := [], sleeps := [] } : PipeState).calls = [] ∧
    ({ errors := [],
       summary := { totalRows := 3, successfulRows := 3, failedRows := 0,
                    filename := "w10.csv" } }
        : IngestionResult).summary.successfulRows
      = [rowA, rowA, rowA].length := by
  have h := C10_zero_retries_counts_without_persisting
    { batchSize := 2, maxRetries := 0, retryDelay := 5 } storeF none "w10.csv"
    [rowA, rowA, rowA]
    { errors := [],
      summary := { totalRows := 3, successfulRows := 3, failedRows := 0,
                   filename := "w10.csv" } }
    { rowNumber := 3, totalSuccess := 3,
      currentBatch := [mapRow none "w10.csv" rowA], errors := [],
      attempts := 0, calls := [], sleeps := [] }
    rfl (by decide)
  exact ⟨rfl, by decide, h.2.1, h.2.2.2.2.1⟩

end FraudDetection
